import Mathlib

/-!
Verification of the report-bot core logic (`reportbot.py`, with `bot.py` a
near-duplicate of the wizard parts) against its natural-language specification.

The Python source is shallowly embedded:
* strings are Lean `String`s operated on through their character lists;
* Python `float` values that flow through the aggregation pipeline are
  modelled as exact rationals (`Rat`); the claims under study are algebraic
  identities about sums, which the embedding states exactly;
* `datetime.date` is a `year/month/day` record; `timedelta` arithmetic is
  modelled by iterated calendar predecessor/successor, proved consistent
  with proleptic-Gregorian ordinal-day arithmetic (`toOrd`), which is the
  semantics of Python date subtraction/addition;
* the global `user_states` dict is an association list threaded explicitly;
* spreadsheet reads and Telegram I/O are inputs/outputs of the pure
  transition functions that model each handler; a failed spreadsheet fetch
  is the `none` case of an `Option` input.
-/

unseal Rat.add Rat.mul Rat.inv

namespace ReportBot

/-! ## Python string primitives -/

/-- Characters stripped by `str.strip()`; the ASCII whitespace characters plus
the non-breaking space, which is whitespace in Python. -/
def isPySpace (c : Char) : Bool :=
  c = ' ' || c = '\t' || c = '\n' || c = '\r' || c = '\x0b' || c = '\x0c' || c = '\xa0'

def pyStripChars (cs : List Char) : List Char :=
  ((cs.dropWhile isPySpace).reverse.dropWhile isPySpace).reverse

/-- `str.strip()`. -/
def pyStrip (s : String) : String := (pyStripChars s.data).asString

/-- `str.replace(old, "")` for a one-character pattern. -/
def pyRemoveChar (old : Char) (s : String) : String :=
  (s.data.filter (fun c => c ≠ old)).asString

/-- `str.replace(old, new)` for one-character pattern and replacement. -/
def pyMapChar (old new : Char) (s : String) : String :=
  (s.data.map (fun c => if c = old then new else c)).asString

/-- `str.upper()` (ASCII letters; sufficient for comparison with "REPORT"). -/
def pyUpper (s : String) : String := (s.data.map Char.toUpper).asString

/-- `str.split(sep)` for a one-character separator, on character lists.
Mirrors Python semantics: splitting the empty string yields `[[]]`. -/
def splitChars (sep : Char) : List Char → List (List Char)
  | [] => [[]]
  | c :: cs =>
    if c = sep then [] :: splitChars sep cs
    else (c :: (splitChars sep cs).headD []) :: (splitChars sep cs).tail

/-- `str.split(sep)` for a one-character separator. -/
def pySplit (sep : Char) (s : String) : List String :=
  (splitChars sep s.data).map List.asString

/-! ## Calendar model (proleptic Gregorian, as Python `datetime.date`) -/

structure Date where
  year : Nat
  month : Nat
  day : Nat
deriving DecidableEq, Repr

def isLeap (y : Nat) : Bool :=
  y % 4 = 0 && (y % 100 ≠ 0 || y % 400 = 0)

def daysInMonth (y m : Nat) : Nat :=
  match m with
  | 1 => 31 | 3 => 31 | 5 => 31 | 7 => 31 | 8 => 31 | 10 => 31 | 12 => 31
  | 4 => 30 | 6 => 30 | 9 => 30 | 11 => 30
  | 2 => if isLeap y then 29 else 28
  | _ => 0

def daysInYear (y : Nat) : Nat := if isLeap y then 366 else 365

def Date.valid (d : Date) : Prop :=
  1 ≤ d.year ∧ 1 ≤ d.month ∧ d.month ≤ 12 ∧ 1 ≤ d.day ∧ d.day ≤ daysInMonth d.year d.month

instance (d : Date) : Decidable d.valid := by unfold Date.valid; infer_instance

/-- Days in year `y` that precede the first day of month `m` (m = 1..13),
without the leap correction. -/
def daysBeforeMonthBase : Nat → Nat
  | 1 => 0 | 2 => 31 | 3 => 59 | 4 => 90 | 5 => 120 | 6 => 151 | 7 => 181
  | 8 => 212 | 9 => 243 | 10 => 273 | 11 => 304 | 12 => 334 | 13 => 365
  | _ => 0

def daysBeforeMonth (y m : Nat) : Nat :=
  daysBeforeMonthBase m + (if 3 ≤ m ∧ m ≤ 13 ∧ isLeap y then 1 else 0)

/-- Days strictly before January 1 of year `y` (year 1 starts the calendar). -/
def daysBeforeYear : Nat → Nat
  | 0 => 0
  | y + 1 => daysBeforeYear y + (if y = 0 then 0 else daysInYear y)

/-- `date.toordinal()`: 0001-01-01 has ordinal 1. -/
def toOrd (d : Date) : Nat :=
  daysBeforeYear d.year + daysBeforeMonth d.year d.month + d.day

/-- `date.weekday()`: Monday = 0 … Sunday = 6. -/
def weekday (d : Date) : Nat := (toOrd d - 1) % 7

/-- Calendar predecessor (`d - timedelta(days=1)`). -/
def datePred (d : Date) : Date :=
  if 2 ≤ d.day then ⟨d.year, d.month, d.day - 1⟩
  else if 2 ≤ d.month then ⟨d.year, d.month - 1, daysInMonth d.year (d.month - 1)⟩
  else ⟨d.year - 1, 12, 31⟩

/-- Calendar successor (`d + timedelta(days=1)`). -/
def dateSucc (d : Date) : Date :=
  if d.day < daysInMonth d.year d.month then ⟨d.year, d.month, d.day + 1⟩
  else if d.month < 12 then ⟨d.year, d.month + 1, 1⟩
  else ⟨d.year + 1, 1, 1⟩

/-- `d - timedelta(days=n)`. -/
def subDaysN (d : Date) : Nat → Date
  | 0 => d
  | n + 1 => datePred (subDaysN d n)

/-- `d + timedelta(days=n)`. -/
def addDaysN (d : Date) : Nat → Date
  | 0 => d
  | n + 1 => dateSucc (addDaysN d n)

/-- Python `date` comparison (chronological order; lexicographic on the
components, which agrees with chronology for valid dates). -/
def dateLe (a b : Date) : Bool :=
  a.year < b.year ||
    (a.year = b.year &&
      (a.month < b.month || (a.month = b.month && a.day ≤ b.day)))

/-! ## Date parsing (`datetime.strptime` with the two formats of the source) -/

def charToDigit (c : Char) : Nat := c.toNat - 48

def digitsToNat (cs : List Char) : Nat :=
  cs.foldl (fun a c => a * 10 + charToDigit c) 0

/-- CPython `%d` fragment: one or two digits with value 1..31. -/
def okDayChars (cs : List Char) : Bool :=
  cs.all Char.isDigit && (cs.length = 1 || cs.length = 2) &&
    1 ≤ digitsToNat cs && digitsToNat cs ≤ 31

/-- CPython `%m` fragment: one or two digits with value 1..12. -/
def okMonthChars (cs : List Char) : Bool :=
  cs.all Char.isDigit && (cs.length = 1 || cs.length = 2) &&
    1 ≤ digitsToNat cs && digitsToNat cs ≤ 12

/-- CPython `%Y` fragment: exactly four digits. -/
def okYearChars (cs : List Char) : Bool :=
  cs.all Char.isDigit && cs.length = 4

/-- The `datetime` constructor that `strptime` ends in: year ≥ 1 and a day
that exists in the given month. -/
def mkValidDate (y m d : Nat) : Option Date :=
  if 1 ≤ y ∧ 1 ≤ d ∧ d ≤ daysInMonth y m then some ⟨y, m, d⟩ else none

/-- `datetime.strptime(s, "%d.%m.%Y").date()`; fails on any leftover input. -/
def parseDMY (s : String) : Option Date :=
  match splitChars '.' s.data with
  | [ds, ms, ys] =>
    if okDayChars ds && okMonthChars ms && okYearChars ys then
      mkValidDate (digitsToNat ys) (digitsToNat ms) (digitsToNat ds)
    else none
  | _ => none

/-- `datetime.strptime(s, "%Y-%m-%d").date()`. -/
def parseYMD (s : String) : Option Date :=
  match splitChars '-' s.data with
  | [ys, ms, ds] =>
    if okYearChars ys && okMonthChars ms && okDayChars ds then
      mkValidDate (digitsToNat ys) (digitsToNat ms) (digitsToNat ds)
    else none
  | _ => none

/-- The date-parsing loop of `process_journal`: strip the field, then try
`"%d.%m.%Y"` and `"%Y-%m-%d"` in that order, first success wins. -/
def parseRowDate (s : String) : Option Date :=
  match parseDMY (pyStrip s) with
  | some d => some d
  | none => parseYMD (pyStrip s)

/-! ## Python `float()` on the decimal strings of the journal,
modelled as an exact rational -/

def parseExponent (sign : Int) (mant : Rat) (cs : List Char) : Option Rat :=
  let (esign, r) : Int × List Char :=
    match cs with
    | '+' :: t => (1, t)
    | '-' :: t => (-1, t)
    | t => (1, t)
  let ed := r.takeWhile Char.isDigit
  let rest := r.dropWhile Char.isDigit
  if ed.isEmpty || !rest.isEmpty then none
  else some ((sign : Rat) * mant * (10 : Rat) ^ (esign * (digitsToNat ed : Int)))

/-- `float(s)` on decimal/scientific notation (the shapes arising in the
journal data); `none` models the `ValueError` branch. -/
def parsePyFloat (s : String) : Option Rat :=
  let cs0 := pyStripChars s.data
  let (sign, cs) : Int × List Char :=
    match cs0 with
    | '+' :: r => (1, r)
    | '-' :: r => (-1, r)
    | r => (1, r)
  let ip := cs.takeWhile Char.isDigit
  let cs1 := cs.dropWhile Char.isDigit
  let (fp, cs2) : List Char × List Char :=
    match cs1 with
    | '.' :: r => (r.takeWhile Char.isDigit, r.dropWhile Char.isDigit)
    | r => ([], r)
  if ip.isEmpty && fp.isEmpty then none
  else
    let mant : Rat := (digitsToNat (ip ++ fp) : Rat) / (10 : Rat) ^ fp.length
    match cs2 with
    | [] => some ((sign : Rat) * mant)
    | c :: r => if c = 'e' ∨ c = 'E' then parseExponent sign mant r else none

/-! ## Rendering (`strftime`, `format_number`) -/

def digitChar (n : Nat) : Char := Char.ofNat (48 + n)

/-- Two-digit zero-padded field (`%d`, `%m`). -/
def pad2 (n : Nat) : List Char := [digitChar (n / 10 % 10), digitChar (n % 10)]

/-- Four-digit year field (`%Y`, for years 1000..9999 as produced here). -/
def pad4 (n : Nat) : List Char :=
  [digitChar (n / 1000 % 10), digitChar (n / 100 % 10),
   digitChar (n / 10 % 10), digitChar (n % 10)]

/-- `d.strftime("%d.%m.%Y")`. -/
def formatDMY (d : Date) : String :=
  (pad2 d.day ++ '.' :: pad2 d.month ++ '.' :: pad4 d.year).asString

/-- `d.strftime("%Y-%m-%d")`. -/
def formatYMD (d : Date) : String :=
  (pad4 d.year ++ '-' :: pad2 d.month ++ '-' :: pad2 d.day).asString

/-- Checks that a string has the `dd.mm.yyyy` shape. -/
def isDMYShape (s : String) : Bool :=
  match splitChars '.' s.data with
  | [ds, ms, ys] =>
    ds.length == 2 && ms.length == 2 && ys.length == 4 &&
      (ds ++ ms ++ ys).all Char.isDigit
  | _ => false

/-- Round to the nearest integer, ties to even (the rounding of `"%.2f"`). -/
def roundHalfEven (q : Rat) : Int :=
  let f := q.floor
  let r := q - (f : Rat)
  if r < 1 / 2 then f
  else if 1 / 2 < r then f + 1
  else if f % 2 = 0 then f else f + 1

/-- Digit characters of `n`, most significant first. -/
def natDigits (n : Nat) : List Char := Nat.toDigits 10 n

/-- Insert a separator after every three digits, walking a reversed digit
list; `k` counts digits still allowed before the next separator. -/
def groupRev : Nat → List Char → List Char
  | _, [] => []
  | 0, c :: cs => ' ' :: c :: groupRev 2 cs
  | k + 1, c :: cs => c :: groupRev k cs

/-- Thousands grouping of the integer part with spaces. -/
def groupDigits (n : Nat) : List Char :=
  (groupRev 3 (natDigits n).reverse).reverse

/-- `format_number`: `"{:,.2f}".format(num).replace(",", " ")`. -/
def format_number (q : Rat) : String :=
  let n := roundHalfEven (q * 100)
  let a := n.natAbs
  let body := groupDigits (a / 100) ++ '.' :: pad2 (a % 100)
  ((if n < 0 then '-' :: body else body)).asString

/-! ## `process_journal` (JournalAggregator) -/

/-- A JOURNAL row, restricted to the columns the code reads:
`row[1]` date, `row[3]` material, `row[4]` operation type, `row[5]` weight,
`row[9]` amount, `row[10]` location (all cell values are strings). -/
structure JournalRow where
  date : String
  material : String
  opType : String
  weight : String
  amount : String
  location : String
deriving DecidableEq, Repr

/-- The aggregated mapping `material -> {"weight": w, "sum": s}`: an
insertion-ordered association list, as a Python dict. -/
abbrev Agg := List (String × Rat × Rat)

/-- `result[material]["weight"] += w; result[material]["sum"] += s`, with the
zero-initialisation on first occurrence. -/
def addEntry : Agg → String → Rat → Rat → Agg
  | [], mat, w, s => [(mat, w, s)]
  | (m, ww, ss) :: rest, mat, w, s =>
    if m = mat then (m, ww + w, ss + s) :: rest
    else (m, ww, ss) :: addEntry rest mat w s

/-- Normalisation of a numeric cell:
`row[i].replace('\xa0', '').replace(",", ".").strip() if row[i] else "0"`. -/
def numField (raw : String) : String :=
  if raw = "" then "0"
  else pyStrip (pyMapChar ',' '.' (pyRemoveChar '\xa0' raw))

/-- One iteration of the row loop of `process_journal`; any failure inside
the loop body (date unparsable, filters, `float()` raising) leaves the
accumulator unchanged, as the `except: continue` does. -/
def processRow (operation_type : String) (start_date end_date : Date)
    (selected_location : String) (acc : Agg) (r : JournalRow) : Agg :=
  match parseRowDate r.date with
  | none => acc
  | some d =>
    if !(dateLe start_date d && dateLe d end_date) then acc
    else if pyStrip r.opType ≠ operation_type then acc
    else if selected_location ≠ "" && pyStrip r.location ≠ selected_location then acc
    else
      match parsePyFloat (numField r.weight), parsePyFloat (numField r.amount) with
      | some w, some s => addEntry acc (pyStrip r.material) w s
      | _, _ => acc

/-- `process_journal`: fold the row loop over `data[1:]` (the first row of
the sheet is the header). -/
def process_journal (operation_type : String) (start_date end_date : Date)
    (selected_location : String) (data : List JournalRow) : Agg :=
  (data.drop 1).foldl (processRow operation_type start_date end_date selected_location) []

/-- The row filters exactly as the claims word them: the date parses (first
format wins) and lies in `[start, end]`; the stripped operation type equals
the requested one; a non-empty location filter must equal the stripped
location field. -/
def rowPassesFilters (operation_type : String) (start_date end_date : Date)
    (selected_location : String) (r : JournalRow) : Bool :=
  (match parseRowDate r.date with
   | some d => dateLe start_date d && dateLe d end_date
   | none => false) &&
  pyStrip r.opType == operation_type &&
  (selected_location == "" || pyStrip r.location == selected_location)

/-- Both numeric cells of the row survive `float()` after normalisation. -/
def numFieldsOk (r : JournalRow) : Bool :=
  (parsePyFloat (numField r.weight)).isSome &&
    (parsePyFloat (numField r.amount)).isSome

/-- First-occurrence lookup in the aggregated mapping. -/
def findEntry : Agg → String → Option (Rat × Rat)
  | [], _ => none
  | (m, w, s) :: rest, mat => if m = mat then some (w, s) else findEntry rest mat

def entryWeight (acc : Agg) (mat : String) : Rat :=
  match findEntry acc mat with
  | some e => e.1
  | none => 0

def entrySum (acc : Agg) (mat : String) : Rat :=
  match findEntry acc mat with
  | some e => e.2
  | none => 0

def sumWeights (l : Agg) : Rat := (l.map (fun e => e.2.1)).sum

def sumAmounts (l : Agg) : Rat := (l.map (fun e => e.2.2)).sum

/-- Material keys of an aggregated mapping. -/
def keysOf (ms : Agg) : List String := ms.map Prod.fst

/-- All material keys across a nested kind grouping. -/
def matsOf : List (String × Agg) → List String
  | [] => []
  | km :: rest => keysOf km.2 ++ matsOf rest

def nestedWeights (g : List (String × Agg)) : Rat :=
  (g.map (fun km => sumWeights km.2)).sum

def nestedAmounts (g : List (String × Agg)) : Rat :=
  (g.map (fun km => sumAmounts km.2)).sum

/-! ## Report formatting (`generate_brief_table_data`,
`generate_detailed_table_data`, the document title) -/

def lookupStr : List (String × String) → String → Option String
  | [], _ => none
  | (k, v) :: rest, key => if k = key then some v else lookupStr rest key

/-- `material_mapping.get(material, "Інше")`. -/
def kindOf (mapping : List (String × String)) (material : String) : String :=
  match lookupStr mapping material with
  | some k => k
  | none => "Інше"

/-- Stable insertion into a list sorted by descending amount (`.2.2`). -/
def insertByAmountDesc (x : String × Rat × Rat) : Agg → Agg
  | [] => [x]
  | y :: ys => if y.2.2 < x.2.2 then x :: y :: ys else y :: insertByAmountDesc x ys

/-- `sorted(items, key=lambda kv: kv[1]["sum"], reverse=True)` (a stable
descending sort; only the permutation property is used by the theorems). -/
def sortByAmountDesc (l : Agg) : Agg := l.foldl (fun acc x => insertByAmountDesc x acc) []

/-- The `grouped` dict of `generate_brief_table_data`: kind-level
accumulation of the aggregated entries. -/
def briefGrouped (agg : Agg) (mapping : List (String × String)) : Agg :=
  agg.foldl (fun g e => addEntry g (kindOf mapping e.1) e.2.1 e.2.2) []

/-- The `overall_weight`/`overall_sum` accumulators of the brief loop. -/
def briefOverall (agg : Agg) (mapping : List (String × String)) : Rat × Rat :=
  (sortByAmountDesc (briefGrouped agg mapping)).foldl
    (fun p e => (p.1 + e.2.1, p.2 + e.2.2)) ((0 : Rat), (0 : Rat))

def generate_brief_table_data (agg : Agg) (mapping : List (String × String)) :
    List (List String) :=
  let sortedKinds := sortByAmountDesc (briefGrouped agg mapping)
  let overall := briefOverall agg mapping
  [["Вид", "Вага (кг)", "Сума"]] ++
    sortedKinds.map (fun e => [e.1, format_number e.2.1, format_number e.2.2]) ++
    [["**Загальний підсумок:**", format_number overall.1, format_number overall.2]]

/-- `grouped[kind][material] = values` (dict assignment, overwriting). -/
def setEntry : Agg → (String × Rat × Rat) → Agg
  | [], e => [e]
  | x :: rest, e => if x.1 = e.1 then e :: rest else x :: setEntry rest e

def addMaterial : List (String × Agg) → String → (String × Rat × Rat) →
    List (String × Agg)
  | [], kind, e => [(kind, [e])]
  | (k, ms) :: rest, kind, e =>
    if k = kind then (k, setEntry ms e) :: rest
    else (k, ms) :: addMaterial rest kind e

/-- The nested `grouped` dict of `generate_detailed_table_data`. -/
def detailedGrouped (agg : Agg) (mapping : List (String × String)) :
    List (String × Agg) :=
  agg.foldl (fun g e => addMaterial g (kindOf mapping e.1) e) []

def lookupNested : List (String × Agg) → String → Option Agg
  | [], _ => none
  | (k, ms) :: rest, key => if k = key then some ms else lookupNested rest key

/-- `kind_subtotals`: per-kind sums over that kind's materials. -/
def kindSubtotals (agg : Agg) (mapping : List (String × String)) : Agg :=
  (detailedGrouped agg mapping).map (fun km => (km.1, sumWeights km.2, sumAmounts km.2))

/-- `avg = sum_val / weight if weight != 0 else 0`. -/
def avgOf (w s : Rat) : Rat := if w ≠ 0 then s / w else 0

/-- The `overall_weight`/`overall_sum` accumulators of the detailed loop
(summed over the sorted kind subtotals). -/
def detailedOverall (agg : Agg) (mapping : List (String × String)) : Rat × Rat :=
  (sortByAmountDesc (kindSubtotals agg mapping)).foldl
    (fun p e => (p.1 + e.2.1, p.2 + e.2.2)) ((0 : Rat), (0 : Rat))

def generate_detailed_table_data (agg : Agg) (mapping : List (String × String)) :
    List (List String) :=
  let grouped := detailedGrouped agg mapping
  let sortedKinds := sortByAmountDesc (kindSubtotals agg mapping)
  let overall := detailedOverall agg mapping
  let kindBlocks := sortedKinds.foldl (fun rows e =>
    rows ++ [["Вид: " ++ e.1, "", "", ""]] ++
      (sortByAmountDesc ((lookupNested grouped e.1).getD [])).map
        (fun v => [v.1, format_number v.2.1, format_number v.2.2,
                   format_number (avgOf v.2.1 v.2.2)]) ++
      [["   Підсумок (" ++ e.1 ++ "):", format_number e.2.1, format_number e.2.2, ""]]) []
  [["Тип сировини", "Вага (кг)", "Сума", "Середня ціна за кг"]] ++ kindBlocks ++
    [["**Загальний підсумок:**", format_number overall.1, format_number overall.2, ""]]

/-! ## Document title of `generate_pdf_report` -/

def monthNamesGen : List String :=
  ["січня", "лютого", "березня", "квітня", "травня", "червня",
   "липня", "серпня", "вересня", "жовтня", "листопада", "грудня"]

def monthNamesNom : List String :=
  ["січень", "лютий", "березень", "квітень", "травень", "червень",
   "липень", "серпень", "вересень", "жовтень", "листопад", "грудень"]

/-- The date-parsing prologue of `generate_pdf_report`: a parse failure of
either bound makes both bounds today's date. -/
def resolveReportDates (startS endS : String) (today : Date) : Date × Date :=
  match parseDMY startS with
  | none => (today, today)
  | some a =>
    match parseDMY endS with
    | none => (today, today)
    | some b => (a, b)

/-- The `full_month` flag: start is day 1 and end is the last day of the
same month and year. -/
def fullMonthB (sd ed : Date) : Bool :=
  sd.day == 1 && ed.day == daysInMonth sd.year sd.month &&
    sd.month == ed.month && sd.year == ed.year

/-- The `docTitle` computation of `generate_pdf_report` (location is the
empty string when unspecified, as the falsy `params.get("location")`). -/
def docTitle (startS endS location : String) (today : Date) : String :=
  let p := resolveReportDates startS endS today
  let sd := p.1
  let ed := p.2
  let locationText := if location = "" then "Загальний" else location
  if sd == ed && !fullMonthB sd ed then
    "Звіт за " ++ toString sd.day ++ " " ++ monthNamesGen.getD (sd.month - 1) "" ++
      " " ++ toString sd.year ++ " року (" ++ locationText ++ ")"
  else if fullMonthB sd ed then
    "Звіт про закупівлі та продажі: " ++ locationText ++ " за " ++
      monthNamesNom.getD (sd.month - 1) "" ++ " " ++ toString sd.year ++ " року"
  else
    "Звіт: " ++ locationText ++ " | " ++ formatYMD sd ++ " - " ++ formatYMD ed

/-! ## Period resolution (`compute_standard_period`) -/

/-- The date pair computed by `compute_standard_period` before rendering. -/
def computeStandardPeriodDates (period : String) (today : Date) : Date × Date :=
  if period = "Сьогодні" then (today, today)
  else if period = "Вчора" then
    let start := subDaysN today 1
    (start, start)
  else if period = "Минулий тиждень" then
    let start := subDaysN today (weekday today + 7)
    (start, addDaysN start 6)
  else if period = "Минулий місяць" then
    let first_day_this_month : Date := ⟨today.year, today.month, 1⟩
    let last_day_last_month := subDaysN first_day_this_month 1
    (⟨last_day_last_month.year, last_day_last_month.month, 1⟩, last_day_last_month)
  else (today, today)

/-- `compute_standard_period`: the `{"start": ..., "end": ...}` dict of
`dd.MM.yyyy` strings. -/
def compute_standard_period (period : String) (today : Date) : String × String :=
  let p := computeStandardPeriodDates period today
  (formatDMY p.1, formatDMY p.2)

/-! ## Conversation state (`user_states`, handlers) -/

/-- The per-user parameter dict; fields not yet assigned hold `""`. -/
structure SessionState where
  stage : String := ""
  location : String := ""
  viewMode : String := ""
  periodType : String := ""
  startDate : String := ""
  endDate : String := ""
  generatedBy : String := ""
deriving DecidableEq, Repr

/-- The global `user_states` dict, keyed by `str(chat_id)`. -/
abbrev Store := List (String × SessionState)

def get_state : Store → String → Option SessionState
  | [], _ => none
  | (k, v) :: rest, cid => if k = cid then some v else get_state rest cid

def set_state : Store → String → SessionState → Store
  | [], cid, st => [(cid, st)]
  | (k, v) :: rest, cid, st =>
    if k = cid then (k, st) :: rest else (k, v) :: set_state rest cid st

/-! ## Access check (`is_user_allowed`) and wizard entry (`report_command`) -/

/-- A USERS row matching `chat_id`: column C (index 2) equals `str(chat_id)`
after stripping, column G (index 6) stripped and uppercased is "REPORT";
a row without these columns cannot match. -/
def usersRowMatches (row : List String) (cid : String) : Bool :=
  7 ≤ row.length &&
    (if row.getD 2 "" ≠ "" then pyStrip (row.getD 2 "") else "") == cid &&
    (if row.getD 6 "" ≠ "" then pyUpper (pyStrip (row.getD 6 "")) else "") == "REPORT"

/-- The row loop of `is_user_allowed`: a row shorter than 7 cells raises
`IndexError`, which the surrounding `try` turns into an immediate `False`. -/
def scanUsers : List (List String) → String → Bool
  | [], _ => false
  | row :: rest, cid =>
    if row.length < 7 then false
    else if usersRowMatches row cid then true
    else scanUsers rest cid

/-- `is_user_allowed(chat_id)`; the `none` fetch models any exception while
reading the spreadsheet (fail-closed). -/
def is_user_allowed (fetch : Option (List (List String))) (cid : String) : Bool :=
  match fetch with
  | none => false
  | some data => scanUsers (data.drop 1) cid

/-- `report_command`: refuse (leaving `user_states` untouched) when the
check fails, otherwise create the fresh session record. The Bool reports
whether the wizard was entered. -/
def report_command (fetch : Option (List (List String))) (cid fullName : String)
    (store : Store) : Store × Bool :=
  if is_user_allowed fetch cid then
    (set_state store cid { stage := "choose_location", generatedBy := fullName }, true)
  else (store, false)

/-! ## Period choice and custom dates handlers -/

inductive PeriodOutcome where
  | enterCustomDates
  | completedReport (st : SessionState)
deriving DecidableEq, Repr

/-- `choose_period_callback` (after the callback-data split): store the
period type; the literal "З - ПО" label moves to `ENTERING_CUSTOM_DATES`,
everything else resolves via `compute_standard_period` and completes. -/
def choose_period_callback (today : Date) (store : Store) (cid period : String) :
    Store × PeriodOutcome :=
  let st0 := (get_state store cid).getD {}
  let st1 := { st0 with periodType := period }
  if period = "З - ПО" then
    (set_state store cid { st1 with stage := "enter_custom_dates" }, .enterCustomDates)
  else
    let computed := compute_standard_period period today
    let st2 := { st1 with
                 stage := "completed"
                 startDate := computed.1
                 endDate := computed.2 }
    (set_state store cid st2, .completedReport st2)

inductive CustomDatesOutcome where
  | reprompt
  | completedReport (st : SessionState)
deriving DecidableEq, Repr

/-- `custom_dates`: split the free text on `-`; token counts other than 1
and 2 re-prompt and leave the store untouched; otherwise store the trimmed
token(s) and complete (triggering report generation). -/
def custom_dates (store : Store) (cid text : String) : Store × CustomDatesOutcome :=
  let parts := pySplit '-' text
  if parts.length ≠ 1 ∧ parts.length ≠ 2 then (store, .reprompt)
  else
    let st0 := (get_state store cid).getD {}
    let st1 := { st0 with
                 periodType := "З - ПО",
                 startDate := pyStrip (parts.headD ""),
                 endDate := if parts.length = 2 then pyStrip (parts.getD 1 "")
                            else pyStrip (parts.headD ""),
                 stage := "completed" }
    (set_state store cid st1, .completedReport st1)

/-! ## Calendar lemmas: the iterated predecessor/successor model agrees
with ordinal-day arithmetic -/

lemma dim_pos (y m : Nat) (h1 : 1 ≤ m) (hm : m ≤ 12) : 1 ≤ daysInMonth y m := by
  unfold daysInMonth
  split <;> (try simp only [imp_false] at *) <;> first | omega | (split <;> omega)

lemma dim_le_31 (y m : Nat) : daysInMonth y m ≤ 31 := by
  unfold daysInMonth
  split <;> first | omega | (split <;> omega)

lemma dbm_succ (y m : Nat) (h1 : 1 ≤ m) (hm : m ≤ 12) :
    daysBeforeMonth y (m + 1) = daysBeforeMonth y m + daysInMonth y m := by
  rcases hL : isLeap y <;>
    interval_cases m <;>
      simp [daysBeforeMonth, daysBeforeMonthBase, daysInMonth, hL]

lemma dbm_day_le (y m d : Nat) (h1 : 1 ≤ m) (hm : m ≤ 12)
    (hd : d ≤ daysInMonth y m) : daysBeforeMonth y m + d ≤ daysInYear y := by
  rcases hL : isLeap y <;>
    interval_cases m <;>
      simp [daysBeforeMonth, daysBeforeMonthBase, daysInMonth, daysInYear, hL] at hd ⊢ <;>
        omega

lemma dby_succ (y : Nat) (h : 1 ≤ y) :
    daysBeforeYear (y + 1) = daysBeforeYear y + daysInYear y := by
  cases y with
  | zero => omega
  | succ n => simp [daysBeforeYear]

lemma dby_mono {y z : Nat} (h : y ≤ z) : daysBeforeYear y ≤ daysBeforeYear z := by
  induction z with
  | zero => simp_all
  | succ n ih =>
    rcases Nat.lt_or_ge y (n + 1) with hlt | hge
    · calc daysBeforeYear y ≤ daysBeforeYear n := ih (by omega)
        _ ≤ daysBeforeYear (n + 1) := by
            rw [show daysBeforeYear (n + 1) =
                  daysBeforeYear n + (if n = 0 then 0 else daysInYear n) from rfl]
            split <;> omega
    · have : y = n + 1 := by omega
      simp [this]

lemma dby_ge_365 (y : Nat) (h : 2 ≤ y) : 365 ≤ daysBeforeYear y := by
  have h2 : daysBeforeYear 2 = 365 := by decide
  calc (365 : Nat) = daysBeforeYear 2 := h2.symm
    _ ≤ daysBeforeYear y := dby_mono h

lemma toOrd_lower (d : Date) (hv : d.valid) : daysBeforeYear d.year + 1 ≤ toOrd d := by
  obtain ⟨_, _, _, hd1, _⟩ := hv
  unfold toOrd
  omega

lemma toOrd_upper (d : Date) (hv : d.valid) : toOrd d ≤ daysBeforeYear (d.year + 1) := by
  obtain ⟨hy, hm1, hm2, hd1, hd2⟩ := hv
  have hb := dbm_day_le d.year d.month d.day hm1 hm2 hd2
  rw [dby_succ d.year hy]
  unfold toOrd
  omega

lemma year_le_of_toOrd_le {a b : Date} (ha : a.valid) (hb : b.valid)
    (h : toOrd a ≤ toOrd b) : a.year ≤ b.year := by
  by_contra hc
  have h1 : a.year ≥ b.year + 1 := by omega
  have h2 := toOrd_upper b hb
  have h3 := toOrd_lower a ha
  have h4 := dby_mono h1
  omega

lemma toOrd_ge_366 (d : Date) (hv : d.valid) (h : 2 ≤ d.year) : 366 ≤ toOrd d := by
  have := dby_ge_365 d.year h
  have := toOrd_lower d hv
  omega

lemma dbm_one (y : Nat) : daysBeforeMonth y 1 = 0 := by
  simp [daysBeforeMonth, daysBeforeMonthBase]

lemma dbm_twelve_add (y : Nat) :
    daysBeforeMonth y 12 + 31 = daysInYear y := by
  simp [daysBeforeMonth, daysBeforeMonthBase, daysInYear]
  split <;> omega

lemma datePred_spec (d : Date) (hv : d.valid) (h2 : 2 ≤ toOrd d) :
    (datePred d).valid ∧ toOrd (datePred d) + 1 = toOrd d := by
  obtain ⟨hy, hm1, hm2, hd1, hd2⟩ := hv
  unfold datePred
  by_cases hday : 2 ≤ d.day
  · rw [if_pos hday]
    unfold Date.valid toOrd
    dsimp only
    omega
  · rw [if_neg hday]
    have hd_eq : d.day = 1 := by omega
    by_cases hmon : 2 ≤ d.month
    · rw [if_pos hmon]
      have hrec := dbm_succ d.year (d.month - 1) (by omega) (by omega)
      have hmm : d.month - 1 + 1 = d.month := by omega
      rw [hmm] at hrec
      have hdp := dim_pos d.year (d.month - 1) (by omega) (by omega)
      unfold Date.valid toOrd
      dsimp only
      omega
    · rw [if_neg hmon]
      have hm_eq : d.month = 1 := by omega
      -- borrowing from the previous year: the year must be at least 2
      have hy2 : 2 ≤ d.year := by
        by_contra hcon
        have hy1 : d.year = 1 := by omega
        unfold toOrd at h2
        rw [hy1, hm_eq, hd_eq] at h2
        simp [daysBeforeYear, dbm_one] at h2
      have hsucc := dby_succ (d.year - 1) (by omega)
      have hyy : d.year - 1 + 1 = d.year := by omega
      rw [hyy] at hsucc
      have h12 := dbm_twelve_add (d.year - 1)
      have h1 := dbm_one d.year
      have hdm12 : daysInMonth (d.year - 1) 12 = 31 := by norm_num [daysInMonth]
      unfold Date.valid toOrd
      dsimp only
      rw [hdm12, hm_eq, hd_eq]
      omega

lemma dateSucc_spec (d : Date) (hv : d.valid) :
    (dateSucc d).valid ∧ toOrd (dateSucc d) = toOrd d + 1 := by
  obtain ⟨hy, hm1, hm2, hd1, hd2⟩ := hv
  unfold dateSucc
  by_cases hday : d.day < daysInMonth d.year d.month
  · rw [if_pos hday]
    unfold Date.valid toOrd
    dsimp only
    omega
  · rw [if_neg hday]
    have hd_eq : d.day = daysInMonth d.year d.month := by omega
    by_cases hmon : d.month < 12
    · rw [if_pos hmon]
      have hrec := dbm_succ d.year d.month hm1 (by omega)
      have hdp := dim_pos d.year (d.month + 1) (by omega) (by omega)
      unfold Date.valid toOrd
      dsimp only
      omega
    · rw [if_neg hmon]
      have hm_eq : d.month = 12 := by omega
      have hsucc := dby_succ d.year hy
      have h12 := dbm_twelve_add d.year
      have h1 := dbm_one (d.year + 1)
      have hdm12 : daysInMonth d.year 12 = 31 := by norm_num [daysInMonth]
      have hdm1 : daysInMonth (d.year + 1) 1 = 31 := by norm_num [daysInMonth]
      rw [hm_eq] at hd_eq
      rw [hdm12] at hd_eq
      unfold Date.valid toOrd
      dsimp only
      rw [hdm1, hm_eq, hd_eq]
      omega

lemma subDaysN_spec (n : Nat) (d : Date) (hv : d.valid) (h : n + 1 ≤ toOrd d) :
    (subDaysN d n).valid ∧ toOrd (subDaysN d n) + n = toOrd d := by
  induction n with
  | zero => exact ⟨hv, rfl⟩
  | succ k ih =>
    obtain ⟨ihv, iho⟩ := ih (by omega)
    have hp := datePred_spec (subDaysN d k) ihv (by omega)
    exact ⟨hp.1, by rw [show subDaysN d (k + 1) = datePred (subDaysN d k) from rfl]; omega⟩

lemma addDaysN_spec (n : Nat) (d : Date) (hv : d.valid) :
    (addDaysN d n).valid ∧ toOrd (addDaysN d n) = toOrd d + n := by
  induction n with
  | zero => exact ⟨hv, rfl⟩
  | succ k ih =>
    have hs := dateSucc_spec (addDaysN d k) ih.1
    exact ⟨hs.1, by rw [show addDaysN d (k + 1) = dateSucc (addDaysN d k) from rfl]; omega⟩

lemma datePred_year_bounds (d : Date) :
    (datePred d).year ≤ d.year ∧ d.year ≤ (datePred d).year + 1 := by
  unfold datePred
  split
  · simp
  · split <;> dsimp only <;> omega

lemma subDaysN_year_bounds (n : Nat) (d : Date) :
    (subDaysN d n).year ≤ d.year ∧ d.year ≤ (subDaysN d n).year + n := by
  induction n with
  | zero => simp [subDaysN]
  | succ k ih =>
    have hp := datePred_year_bounds (subDaysN d k)
    rw [show subDaysN d (k + 1) = datePred (subDaysN d k) from rfl]
    omega

lemma dateSucc_year_bounds (d : Date) :
    d.year ≤ (dateSucc d).year ∧ (dateSucc d).year ≤ d.year + 1 := by
  unfold dateSucc
  split
  · simp
  · split <;> simp

lemma addDaysN_year_bounds (n : Nat) (d : Date) :
    d.year ≤ (addDaysN d n).year ∧ (addDaysN d n).year ≤ d.year + n := by
  induction n with
  | zero => simp [addDaysN]
  | succ k ih =>
    have hp := dateSucc_year_bounds (addDaysN d k)
    rw [show addDaysN d (k + 1) = dateSucc (addDaysN d k) from rfl]
    omega

/-! ## The rendered strings have the `dd.mm.yyyy` shape -/

lemma digitChar_isDigit {k : Nat} (h : k ≤ 9) : (digitChar k).isDigit = true := by
  interval_cases k <;> decide

lemma digitChar_ne_dot {k : Nat} (h : k ≤ 9) : digitChar k ≠ '.' := by
  interval_cases k <;> decide

lemma pad2_spec (n : Nat) :
    (pad2 n).length = 2 ∧ (pad2 n).all Char.isDigit = true ∧ '.' ∉ pad2 n := by
  have h1 : n / 10 % 10 ≤ 9 := by omega
  have h2 : n % 10 ≤ 9 := by omega
  refine ⟨rfl, ?_, ?_⟩
  · simp [pad2, digitChar_isDigit h1, digitChar_isDigit h2]
  · simp [pad2]
    exact ⟨(digitChar_ne_dot h1).symm, (digitChar_ne_dot h2).symm⟩

lemma pad4_spec (n : Nat) :
    (pad4 n).length = 4 ∧ (pad4 n).all Char.isDigit = true ∧ '.' ∉ pad4 n := by
  have h1 : n / 1000 % 10 ≤ 9 := by omega
  have h2 : n / 100 % 10 ≤ 9 := by omega
  have h3 : n / 10 % 10 ≤ 9 := by omega
  have h4 : n % 10 ≤ 9 := by omega
  refine ⟨rfl, ?_, ?_⟩
  · simp [pad4, digitChar_isDigit h1, digitChar_isDigit h2, digitChar_isDigit h3,
      digitChar_isDigit h4]
  · simp [pad4]
    exact ⟨(digitChar_ne_dot h1).symm, (digitChar_ne_dot h2).symm,
      (digitChar_ne_dot h3).symm, (digitChar_ne_dot h4).symm⟩

lemma splitChars_cons (sep c : Char) (cs : List Char) :
    splitChars sep (c :: cs) =
      if c = sep then [] :: splitChars sep cs
      else (c :: (splitChars sep cs).headD []) :: (splitChars sep cs).tail := rfl

lemma splitChars_no_sep (sep : Char) (l : List Char) (h : sep ∉ l) :
    splitChars sep l = [l] := by
  induction l with
  | nil => rfl
  | cons c cs ih =>
    have hc : ¬(c = sep) := fun e => h (by rw [e]; exact List.mem_cons_self _ _)
    have hcs : sep ∉ cs := fun m => h (List.mem_cons_of_mem _ m)
    rw [splitChars_cons, if_neg hc, ih hcs]
    rfl

lemma splitChars_sep_cons (sep : Char) (l1 l2 : List Char) (h : sep ∉ l1) :
    splitChars sep (l1 ++ sep :: l2) = l1 :: splitChars sep l2 := by
  induction l1 with
  | nil =>
    simp only [List.nil_append]
    rw [splitChars_cons, if_pos rfl]
  | cons c cs ih =>
    have hc : ¬(c = sep) := fun e => h (by rw [e]; exact List.mem_cons_self _ _)
    have hcs : sep ∉ cs := fun m => h (List.mem_cons_of_mem _ m)
    rw [List.cons_append, splitChars_cons, if_neg hc, ih hcs]
    rfl

lemma data_asString (l : List Char) : (List.asString l).data = l := rfl

lemma isDMYShape_formatDMY (d : Date) : isDMYShape (formatDMY d) = true := by
  obtain ⟨hl2, ha2, hn2⟩ := pad2_spec d.day
  obtain ⟨hl2m, ha2m, hn2m⟩ := pad2_spec d.month
  obtain ⟨hl4, ha4, hn4⟩ := pad4_spec d.year
  unfold isDMYShape formatDMY
  rw [data_asString]
  simp only [List.cons_append, List.append_assoc]
  simp only [splitChars_sep_cons '.' (pad2 d.day) (pad2 d.month ++ '.' :: pad4 d.year) hn2,
      splitChars_sep_cons '.' (pad2 d.month) (pad4 d.year) hn2m,
      splitChars_no_sep '.' (pad4 d.year) hn4]
  simp [hl2, hl2m, hl4, List.all_append, ha2, ha2m, ha4]

/-! ## Unfoldings of `compute_standard_period` per period label -/

lemma csp_today (td : Date) :
    computeStandardPeriodDates "Сьогодні" td = (td, td) := rfl

lemma csp_yesterday (td : Date) :
    computeStandardPeriodDates "Вчора" td = (subDaysN td 1, subDaysN td 1) := by
  unfold computeStandardPeriodDates
  rw [if_neg (by decide), if_pos rfl]

lemma csp_week (td : Date) :
    computeStandardPeriodDates "Минулий тиждень" td =
      (subDaysN td (weekday td + 7), addDaysN (subDaysN td (weekday td + 7)) 6) := by
  unfold computeStandardPeriodDates
  rw [if_neg (by decide), if_neg (by decide), if_pos rfl]

lemma csp_month (td : Date) :
    computeStandardPeriodDates "Минулий місяць" td =
      (⟨(subDaysN ⟨td.year, td.month, 1⟩ 1).year, (subDaysN ⟨td.year, td.month, 1⟩ 1).month, 1⟩,
       subDaysN ⟨td.year, td.month, 1⟩ 1) := by
  unfold computeStandardPeriodDates
  rw [if_neg (by decide), if_neg (by decide), if_neg (by decide), if_pos rfl]

lemma csp_other (period : String) (td : Date)
    (h1 : period ≠ "Сьогодні") (h2 : period ≠ "Вчора")
    (h3 : period ≠ "Минулий тиждень") (h4 : period ≠ "Минулий місяць") :
    computeStandardPeriodDates period td = (td, td) := by
  unfold computeStandardPeriodDates
  rw [if_neg h1, if_neg h2, if_neg h3, if_neg h4]

lemma datePred_first_day (y m : Nat) :
    datePred ⟨y, m, 1⟩ =
      if 2 ≤ m then ⟨y, m - 1, daysInMonth y (m - 1)⟩ else ⟨y - 1, 12, 31⟩ := by
  unfold datePred
  dsimp only
  rw [if_neg (by omega)]

/-- C3: for every calendar date `today` and each of the four fixed labels,
`compute_standard_period` returns a range with start ≤ end (chronologically,
i.e. on ordinal days), both rendered as `dd.mm.yyyy`; TODAY gives
start = end = today; YESTERDAY gives start = end = today − 1 day; LAST_WEEK
gives start = the Monday (weekday 0) of the ISO week immediately preceding
today's week (the Monday of today's week minus 7 days) and end = start + 6
days, a Sunday (weekday 6) — for every weekday of today, Monday included;
LAST_MONTH gives the first and last day of the month preceding today's
month, with the December rollover when today is in January. -/
theorem c3_compute_standard_period (today : Date) (hv : today.valid)
    (hylo : 1900 ≤ today.year) (hyhi : today.year ≤ 9999) :
    (computeStandardPeriodDates "Сьогодні" today = (today, today)) ∧
    ((computeStandardPeriodDates "Вчора" today).2 =
        (computeStandardPeriodDates "Вчора" today).1 ∧
      (computeStandardPeriodDates "Вчора" today).1.valid ∧
      toOrd (computeStandardPeriodDates "Вчора" today).1 + 1 = toOrd today) ∧
    ((computeStandardPeriodDates "Минулий тиждень" today).1.valid ∧
      (computeStandardPeriodDates "Минулий тиждень" today).2.valid ∧
      weekday (computeStandardPeriodDates "Минулий тиждень" today).1 = 0 ∧
      weekday (computeStandardPeriodDates "Минулий тиждень" today).2 = 6 ∧
      toOrd (computeStandardPeriodDates "Минулий тиждень" today).1 + 7 =
        toOrd (subDaysN today (weekday today)) ∧
      toOrd (computeStandardPeriodDates "Минулий тиждень" today).2 =
        toOrd (computeStandardPeriodDates "Минулий тиждень" today).1 + 6) ∧
    ((2 ≤ today.month →
        computeStandardPeriodDates "Минулий місяць" today =
          (⟨today.year, today.month - 1, 1⟩,
           ⟨today.year, today.month - 1, daysInMonth today.year (today.month - 1)⟩)) ∧
      (today.month = 1 →
        computeStandardPeriodDates "Минулий місяць" today =
          (⟨today.year - 1, 12, 1⟩, ⟨today.year - 1, 12, 31⟩))) ∧
    (∀ period, period ∈ ["Сьогодні", "Вчора", "Минулий тиждень", "Минулий місяць"] →
      compute_standard_period period today =
        (formatDMY (computeStandardPeriodDates period today).1,
         formatDMY (computeStandardPeriodDates period today).2) ∧
      isDMYShape (compute_standard_period period today).1 = true ∧
      isDMYShape (compute_standard_period period today).2 = true ∧
      toOrd (computeStandardPeriodDates period today).1 ≤
        toOrd (computeStandardPeriodDates period today).2) := by
  have h366 := toOrd_ge_366 today hv (by omega)
  have hwd : weekday today ≤ 6 := Nat.le_of_lt_succ (Nat.mod_lt _ (by norm_num))
  have hyst := subDaysN_spec 1 today hv (by omega)
  have hwk := subDaysN_spec (weekday today + 7) today hv (by omega)
  have hmon := subDaysN_spec (weekday today) today hv (by omega)
  have hend := addDaysN_spec 6 (subDaysN today (weekday today + 7)) hwk.1
  have hewd : weekday today = (toOrd today - 1) % 7 := rfl
  have e1 : toOrd (subDaysN today (weekday today + 7)) + (weekday today + 7) =
      toOrd today := hwk.2
  have e2 : toOrd (addDaysN (subDaysN today (weekday today + 7)) 6) =
      toOrd (subDaysN today (weekday today + 7)) + 6 := hend.2
  have e3 : toOrd (subDaysN today (weekday today)) + weekday today = toOrd today :=
    hmon.2
  have e4 : toOrd (subDaysN today 1) + 1 = toOrd today := hyst.2
  have hpred1 : subDaysN (⟨today.year, today.month, 1⟩ : Date) 1 =
      datePred ⟨today.year, today.month, 1⟩ := rfl
  refine ⟨csp_today today, ?_, ?_, ?_, ?_⟩
  · rw [csp_yesterday]
    dsimp only
    exact ⟨rfl, hyst.1, e4⟩
  · rw [csp_week]
    dsimp only
    refine ⟨hwk.1, hend.1, ?_, ?_, by omega, e2⟩
    · show (toOrd (subDaysN today (weekday today + 7)) - 1) % 7 = 0
      omega
    · show (toOrd (addDaysN (subDaysN today (weekday today + 7)) 6) - 1) % 7 = 6
      omega
  · constructor
    · intro hm2
      rw [csp_month, hpred1, datePred_first_day, if_pos (by omega)]
    · intro hm1
      rw [csp_month, hpred1, datePred_first_day, if_neg (by omega)]
  · intro period hp
    obtain ⟨hvv, hm1, hm2, hd1, hd2⟩ := hv
    refine ⟨rfl, isDMYShape_formatDMY _, isDMYShape_formatDMY _, ?_⟩
    simp only [List.mem_cons, List.not_mem_nil, or_false] at hp
    rcases hp with h | h | h | h
    · rw [h, csp_today]
    · rw [h, csp_yesterday]
    · rw [h, csp_week]
      dsimp only
      omega
    · rw [h, csp_month, hpred1, datePred_first_day]
      by_cases hc : 2 ≤ today.month
      · rw [if_pos hc]
        have hdp := dim_pos today.year (today.month - 1) (by omega) (by omega)
        dsimp only
        unfold toOrd
        dsimp only
        omega
      · rw [if_neg hc]
        dsimp only
        unfold toOrd
        dsimp only
        omega

/-- Witness for C3 at the concrete date 2025-10-12 (a Sunday). -/
theorem c3_witness :
    (⟨2025, 10, 12⟩ : Date).valid ∧ 1900 ≤ 2025 ∧ 2025 ≤ 9999 ∧
    computeStandardPeriodDates "Сьогодні" ⟨2025, 10, 12⟩ =
      (⟨2025, 10, 12⟩, ⟨2025, 10, 12⟩) ∧
    weekday (computeStandardPeriodDates "Минулий тиждень" ⟨2025, 10, 12⟩).1 = 0 :=
  ⟨by decide, by norm_num, by norm_num,
   (c3_compute_standard_period ⟨2025, 10, 12⟩ (by decide) (by norm_num) (by norm_num)).1,
   (c3_compute_standard_period ⟨2025, 10, 12⟩ (by decide) (by norm_num)
     (by norm_num)).2.2.1.2.2.1⟩

/-- C7 (counterexample): the label "МИНУЛИЙ РІК" is outside the fixed set,
yet `compute_standard_period` produces a range (today's single-day range)
instead of rejecting it, and `choose_period_callback` completes the report
immediately instead of treating it as a custom-range request. -/
theorem c7_counterexample :
    computeStandardPeriodDates "МИНУЛИЙ РІК" ⟨2025, 3, 15⟩ = (⟨2025, 3, 15⟩, ⟨2025, 3, 15⟩) ∧
    (choose_period_callback ⟨2025, 3, 15⟩ [] "7" "МИНУЛИЙ РІК").2 ≠
      PeriodOutcome.enterCustomDates := by
  constructor
  · rfl
  · intro h
    simp [choose_period_callback, get_state, compute_standard_period] at h

/-- C7 (amended): for every label outside the fixed set
{Сьогодні, Вчора, Минулий тиждень, Минулий місяць}, `compute_standard_period`
does not reject: it falls back to the TODAY range; the caller
`choose_period_callback` treats only the literal "З - ПО" as a custom-range
request, and completes the report with the today-range for every other
unknown label. -/
theorem c7_unknown_label (period : String) (today : Date) (store : Store) (cid : String)
    (h : period ∉ ["Сьогодні", "Вчора", "Минулий тиждень", "Минулий місяць"]) :
    computeStandardPeriodDates period today = (today, today) ∧
    (period = "З - ПО" →
      (choose_period_callback today store cid period).2 = PeriodOutcome.enterCustomDates) ∧
    (period ≠ "З - ПО" →
      (choose_period_callback today store cid period).2 =
        PeriodOutcome.completedReport
          { (get_state store cid).getD {} with
            periodType := period
            stage := "completed"
            startDate := formatDMY today
            endDate := formatDMY today }) := by
  simp only [List.mem_cons, List.not_mem_nil, or_false, not_or] at h
  obtain ⟨h1, h2, h3, h4⟩ := h
  have hcsp := csp_other period today h1 h2 h3 h4
  refine ⟨hcsp, ?_, ?_⟩
  · intro hz
    unfold choose_period_callback
    rw [if_pos hz]
  · intro hz
    unfold choose_period_callback
    rw [if_neg hz]
    dsimp only
    unfold compute_standard_period
    rw [hcsp]

/-- Witness for C7's amended theorem at a concrete unknown label. -/
theorem c7_witness :
    computeStandardPeriodDates "КВАРТАЛ" ⟨2025, 6, 1⟩ = (⟨2025, 6, 1⟩, ⟨2025, 6, 1⟩) ∧
    (choose_period_callback ⟨2025, 6, 1⟩ [] "9" "КВАРТАЛ").2 =
      PeriodOutcome.completedReport
        { periodType := "КВАРТАЛ", stage := "completed",
          startDate := "01.06.2025", endDate := "01.06.2025" } := by
  have h := c7_unknown_label "КВАРТАЛ" ⟨2025, 6, 1⟩ [] "9" (by decide)
  refine ⟨h.1, ?_⟩
  have h2 := h.2.2 (by decide)
  rw [h2]
  rfl

/-! ## Characterisation of the row loop -/

lemma processRow_eq (op : String) (s e : Date) (loc : String) (acc : Agg)
    (r : JournalRow) :
    processRow op s e loc acc r =
      if rowPassesFilters op s e loc r && numFieldsOk r then
        addEntry acc (pyStrip r.material)
          ((parsePyFloat (numField r.weight)).getD 0)
          ((parsePyFloat (numField r.amount)).getD 0)
      else acc := by
  unfold processRow rowPassesFilters numFieldsOk
  cases hd : parseRowDate r.date with
  | none => simp
  | some d =>
    by_cases h1 : (dateLe s d && dateLe d e) = true <;>
    by_cases h2 : pyStrip r.opType = op <;>
    by_cases h3 : loc = "" <;>
    by_cases h4 : pyStrip r.location = loc <;>
    cases hw : parsePyFloat (numField r.weight) <;>
    cases hs : parsePyFloat (numField r.amount) <;>
      simp [h1, h2, h3, h4, hw, hs]

lemma processRow_skip (op : String) (s e : Date) (loc : String) (acc : Agg)
    (r : JournalRow) (h : (rowPassesFilters op s e loc r && numFieldsOk r) = false) :
    processRow op s e loc acc r = acc := by
  rw [processRow_eq, h]
  simp

lemma foldl_filter_skip {α β : Type} (f : β → α → β) (p : α → Bool)
    (hp : ∀ b a, p a = false → f b a = b) :
    ∀ (l : List α) (b : β), (l.filter p).foldl f b = l.foldl f b := by
  intro l
  induction l with
  | nil => intro b; rfl
  | cons x xs ih =>
    intro b
    cases hx : p x with
    | true => simp [List.filter_cons, hx, ih]
    | false => simp [List.filter_cons, hx, hp b x hx, ih]

/-- C1 (counterexample): a row whose date, operation type and location all
satisfy the claimed filter conditions, but whose weight cell is unparsable
("abc"): contrary to the claim's "if and only if", the row contributes
nothing — the aggregated mapping stays empty because the `float()` failure
makes the loop skip the whole row. -/
theorem c1_counterexample :
    rowPassesFilters "КУПІВЛЯ" ⟨2025, 3, 1⟩ ⟨2025, 3, 31⟩ ""
      ⟨"01.03.2025", "Мідь", "КУПІВЛЯ", "abc", "5", ""⟩ = true ∧
    process_journal "КУПІВЛЯ" ⟨2025, 3, 1⟩ ⟨2025, 3, 31⟩ ""
      [⟨"Дата", "Матеріал", "Тип", "Вага", "Сума", "Точка"⟩,
       ⟨"01.03.2025", "Мідь", "КУПІВЛЯ", "abc", "5", ""⟩] = [] := by
  constructor <;> decide

/-- C1 (amended): a journal row contributes to the aggregated mapping of
`process_journal` iff it passes the three claimed filters (date parses under
`dd.mm.yyyy` or `yyyy-mm-dd`, first success winning, and lies in
`[start, end]`; stripped operation type equals the requested one; empty
location filter or stripped location equals the filter) AND both normalised
numeric cells parse; rows failing the filters never contribute (the whole
pass equals the pass over the filtered rows), and a single selected row
yields a non-empty mapping exactly when it passes filters and both numeric
cells parse. -/
theorem c1_row_filter (op : String) (s e : Date) (loc : String)
    (hdr : JournalRow) (rows : List JournalRow) :
    process_journal op s e loc (hdr :: rows) =
      (rows.filter (fun r => rowPassesFilters op s e loc r && numFieldsOk r)).foldl
        (processRow op s e loc) [] ∧
    (∀ r acc, rowPassesFilters op s e loc r = false →
      processRow op s e loc acc r = acc) ∧
    (∀ r, process_journal op s e loc [hdr, r] ≠ [] ↔
      (rowPassesFilters op s e loc r = true ∧ numFieldsOk r = true)) := by
  refine ⟨?_, ?_, ?_⟩
  · unfold process_journal
    rw [foldl_filter_skip _ _ (fun b a => processRow_skip op s e loc b a)]
    rfl
  · intro r acc h
    exact processRow_skip op s e loc acc r (by rw [h]; rfl)
  · intro r
    have hone : process_journal op s e loc [hdr, r] = processRow op s e loc [] r := rfl
    rw [hone, processRow_eq]
    cases hpass : rowPassesFilters op s e loc r <;>
      cases hok : numFieldsOk r <;> simp [addEntry]

/-- Witness for C1's amended theorem: the exclusion conjunct applied to a
concrete row with a mismatched operation type. -/
theorem c1_witness :
    processRow "КУПІВЛЯ" ⟨2025, 3, 1⟩ ⟨2025, 3, 31⟩ "" []
      ⟨"01.03.2025", "Мідь", "ПРОДАЖ", "1", "5", ""⟩ = [] :=
  (c1_row_filter "КУПІВЛЯ" ⟨2025, 3, 1⟩ ⟨2025, 3, 31⟩ ""
    ⟨"Дата", "Матеріал", "Тип", "Вага", "Сума", "Точка"⟩ []).2.1
    ⟨"01.03.2025", "Мідь", "ПРОДАЖ", "1", "5", ""⟩ [] (by decide)

/-- C2 (counterexample): a row matching all filters whose amount cell is
unparsable ("xyz") after normalisation: contrary to the claim, the row is
not processed with amount zero — it is skipped entirely and the aggregated
mapping stays empty. -/
theorem c2_counterexample :
    rowPassesFilters "ПРОДАЖ" ⟨2025, 3, 1⟩ ⟨2025, 3, 31⟩ ""
      ⟨"02.03.2025", "Алюміній", "ПРОДАЖ", "3", "xyz", ""⟩ = true ∧
    process_journal "ПРОДАЖ" ⟨2025, 3, 1⟩ ⟨2025, 3, 31⟩ ""
      [⟨"Дата", "Матеріал", "Тип", "Вага", "Сума", "Точка"⟩,
       ⟨"02.03.2025", "Алюміній", "ПРОДАЖ", "3", "xyz", ""⟩] = [] ∧
    ([] : Agg) ≠ [("Алюміній", (3 : Rat), (0 : Rat))] := by
  refine ⟨by decide, by decide, by decide⟩

/-- C2 (amended): for a row matching the filters, the numeric cells are
normalised before parsing (non-breaking spaces removed, decimal comma to
point, then stripped); an *empty* cell is replaced by "0" and contributes
zero while the row is still processed; but a non-empty cell that fails to
parse after normalisation causes the entire row to be skipped. -/
theorem c2_numeric_normalisation (op : String) (s e : Date) (loc : String)
    (acc : Agg) (r : JournalRow)
    (hmatch : rowPassesFilters op s e loc r = true) :
    (r.weight = "" → ∀ sv, parsePyFloat (numField r.amount) = some sv →
      processRow op s e loc acc r = addEntry acc (pyStrip r.material) 0 sv) ∧
    (r.amount = "" → ∀ w, parsePyFloat (numField r.weight) = some w →
      processRow op s e loc acc r = addEntry acc (pyStrip r.material) w 0) ∧
    (r.weight ≠ "" →
      numField r.weight = pyStrip (pyMapChar ',' '.' (pyRemoveChar '\xa0' r.weight))) ∧
    (parsePyFloat (numField r.weight) = none → processRow op s e loc acc r = acc) ∧
    (parsePyFloat (numField r.amount) = none → processRow op s e loc acc r = acc) := by
  refine ⟨?_, ?_, ?_, ?_, ?_⟩
  · intro hw0 sv hsv
    have h0 : parsePyFloat (numField r.weight) = some 0 := by
      rw [numField, if_pos hw0]; decide
    rw [processRow_eq]
    simp [numFieldsOk, h0, hsv, hmatch]
  · intro hs0 w hw
    have h0 : parsePyFloat (numField r.amount) = some 0 := by
      rw [numField, if_pos hs0]; decide
    rw [processRow_eq]
    simp [numFieldsOk, h0, hw, hmatch]
  · intro hne
    rw [numField, if_neg hne]
  · intro hnone
    rw [processRow_eq]
    simp [numFieldsOk, hnone]
  · intro hnone
    rw [processRow_eq]
    simp [numFieldsOk, hnone]

/-- Witness for C2's amended theorem: an empty weight cell contributes
weight 0 while the amount (with a decimal comma and non-breaking space) is
still accumulated. -/
theorem c2_witness :
    processRow "КУПІВЛЯ" ⟨2025, 3, 1⟩ ⟨2025, 3, 31⟩ "" []
      ⟨"01.03.2025", "Мідь", "КУПІВЛЯ", "", "1\xa0234,5", ""⟩ =
      addEntry [] "Мідь" 0 (24690 / 20 : Rat) :=
  (c2_numeric_normalisation "КУПІВЛЯ" ⟨2025, 3, 1⟩ ⟨2025, 3, 31⟩ "" []
    ⟨"01.03.2025", "Мідь", "КУПІВЛЯ", "", "1\xa0234,5", ""⟩ (by decide)).1
    rfl (24690 / 20 : Rat) (by decide)

/-! ## C9: accumulation never decreases an entry (given non-negative inputs) -/

lemma findEntry_cons (k : String) (kw ks : Rat) (xs : Agg) (mat : String) :
    findEntry ((k, kw, ks) :: xs) mat =
      if k = mat then some (kw, ks) else findEntry xs mat := rfl

lemma entryWeight_cons (k : String) (kw ks : Rat) (xs : Agg) (mat : String) :
    entryWeight ((k, kw, ks) :: xs) mat =
      if k = mat then kw else entryWeight xs mat := by
  unfold entryWeight
  rw [findEntry_cons]
  by_cases h : k = mat
  · simp [h]
  · simp only [if_neg h]

lemma entrySum_cons (k : String) (kw ks : Rat) (xs : Agg) (mat : String) :
    entrySum ((k, kw, ks) :: xs) mat =
      if k = mat then ks else entrySum xs mat := by
  unfold entrySum
  rw [findEntry_cons]
  by_cases h : k = mat
  · simp [h]
  · simp only [if_neg h]

lemma entryWeight_addEntry (acc : Agg) (mat m : String) (w s : Rat) :
    entryWeight (addEntry acc m w s) mat =
      if mat = m then entryWeight acc mat + w else entryWeight acc mat := by
  induction acc with
  | nil =>
    by_cases h : mat = m
    · subst h
      simp [addEntry, entryWeight, findEntry]
    · have h2 : ¬(m = mat) := fun hh => h hh.symm
      simp [addEntry, entryWeight, findEntry, h, h2]
  | cons x xs ih =>
    obtain ⟨k, kw, ks⟩ := x
    by_cases hk : k = m
    · subst hk
      by_cases hmk : mat = k
      · subst hmk
        simp [addEntry, entryWeight, findEntry]
      · have h2 : ¬(k = mat) := fun hh => hmk hh.symm
        simp [addEntry, entryWeight, findEntry, hmk, h2]
    · have hcons : addEntry ((k, kw, ks) :: xs) m w s = (k, kw, ks) :: addEntry xs m w s := by
        simp [addEntry, hk]
      rw [hcons]
      by_cases hmk : k = mat
      · subst hmk
        simp [entryWeight_cons, fun hh : k = m => hk hh]
      · simp [entryWeight_cons, hmk, ih]

lemma entrySum_addEntry (acc : Agg) (mat m : String) (w s : Rat) :
    entrySum (addEntry acc m w s) mat =
      if mat = m then entrySum acc mat + s else entrySum acc mat := by
  induction acc with
  | nil =>
    by_cases h : mat = m
    · subst h
      simp [addEntry, entrySum, findEntry]
    · have h2 : ¬(m = mat) := fun hh => h hh.symm
      simp [addEntry, entrySum, findEntry, h, h2]
  | cons x xs ih =>
    obtain ⟨k, kw, ks⟩ := x
    by_cases hk : k = m
    · subst hk
      by_cases hmk : mat = k
      · subst hmk
        simp [addEntry, entrySum, findEntry]
      · have h2 : ¬(k = mat) := fun hh => hmk hh.symm
        simp [addEntry, entrySum, findEntry, hmk, h2]
    · have hcons : addEntry ((k, kw, ks) :: xs) m w s = (k, kw, ks) :: addEntry xs m w s := by
        simp [addEntry, hk]
      rw [hcons]
      by_cases hmk : k = mat
      · subst hmk
        simp [entrySum_cons, fun hh : k = m => hk hh]
      · simp [entrySum_cons, hmk, ih]

/-- C9 (counterexample): with the data model's hypotheses satisfied (row
weight ≥ 0, amount merely "a decimal"), processing one more matching row can
*decrease* the accumulated amount: a second Мідь row with amount "-5" drops
the accumulated sum from 10 to 5. -/
theorem c9_counterexample :
    entrySum (process_journal "КУПІВЛЯ" ⟨2025, 3, 1⟩ ⟨2025, 3, 31⟩ ""
      [⟨"Дата", "Матеріал", "Тип", "Вага", "Сума", "Точка"⟩,
       ⟨"01.03.2025", "Мідь", "КУПІВЛЯ", "1", "10", ""⟩,
       ⟨"02.03.2025", "Мідь", "КУПІВЛЯ", "1", "-5", ""⟩]) "Мідь" <
    entrySum (process_journal "КУПІВЛЯ" ⟨2025, 3, 1⟩ ⟨2025, 3, 31⟩ ""
      [⟨"Дата", "Матеріал", "Тип", "Вага", "Сума", "Точка"⟩,
       ⟨"01.03.2025", "Мідь", "КУПІВЛЯ", "1", "10", ""⟩]) "Мідь" ∧
    parsePyFloat (numField "1") = some 1 ∧ (0 : Rat) ≤ 1 := by
  refine ⟨by decide, by decide, by norm_num⟩

/-- C9 (amended): each step of the accumulation is monotone — an arbitrary
row never decreases the stored weight of any material provided its parsed
weight is non-negative, and never decreases the stored amount provided its
parsed amount is non-negative. -/
theorem c9_monotone_accumulation (op : String) (s e : Date) (loc : String)
    (acc : Agg) (r : JournalRow) (mat : String)
    (hw : ∀ w, parsePyFloat (numField r.weight) = some w → 0 ≤ w)
    (hs : ∀ v, parsePyFloat (numField r.amount) = some v → 0 ≤ v) :
    entryWeight acc mat ≤ entryWeight (processRow op s e loc acc r) mat ∧
    entrySum acc mat ≤ entrySum (processRow op s e loc acc r) mat := by
  rw [processRow_eq]
  cases hcond : (rowPassesFilters op s e loc r && numFieldsOk r) with
  | false => simp
  | true =>
    simp only [if_true]
    rw [entryWeight_addEntry, entrySum_addEntry]
    have h0w : 0 ≤ (parsePyFloat (numField r.weight)).getD 0 := by
      cases hww : parsePyFloat (numField r.weight) with
      | none => simp
      | some w => simpa using hw w hww
    have h0s : 0 ≤ (parsePyFloat (numField r.amount)).getD 0 := by
      cases hss : parsePyFloat (numField r.amount) with
      | none => simp
      | some v => simpa using hs v hss
    constructor <;> split <;> linarith

/-- Witness for C9's amended theorem at a concrete matching row. -/
theorem c9_witness :
    entryWeight
        (processRow "КУПІВЛЯ" ⟨2025, 3, 1⟩ ⟨2025, 3, 31⟩ ""
          [("Мідь", (2 : Rat), (3 : Rat))]
          ⟨"01.03.2025", "Мідь", "КУПІВЛЯ", "1", "4", ""⟩) "Мідь" ≥
      entryWeight [("Мідь", (2 : Rat), (3 : Rat))] "Мідь" := by
  refine (c9_monotone_accumulation "КУПІВЛЯ" ⟨2025, 3, 1⟩ ⟨2025, 3, 31⟩ ""
    [("Мідь", (2 : Rat), (3 : Rat))] ⟨"01.03.2025", "Мідь", "КУПІВЛЯ", "1", "4", ""⟩
    "Мідь" ?_ ?_).1
  · intro w hw
    rw [show parsePyFloat (numField "1") = some 1 from by decide] at hw
    injection hw with hh
    rw [← hh]
    norm_num
  · intro v hv
    rw [show parsePyFloat (numField "4") = some 4 from by decide] at hv
    injection hv with hh
    rw [← hh]
    norm_num

/-! ## C4: grand totals agree with raw totals -/

lemma sumWeights_cons (x : String × Rat × Rat) (xs : Agg) :
    sumWeights (x :: xs) = x.2.1 + sumWeights xs := by
  simp [sumWeights]

lemma sumAmounts_cons (x : String × Rat × Rat) (xs : Agg) :
    sumAmounts (x :: xs) = x.2.2 + sumAmounts xs := by
  simp [sumAmounts]

lemma sums_addEntry (g : Agg) (m : String) (w s : Rat) :
    sumWeights (addEntry g m w s) = sumWeights g + w ∧
    sumAmounts (addEntry g m w s) = sumAmounts g + s := by
  induction g with
  | nil => simp [addEntry, sumWeights, sumAmounts]
  | cons x xs ih =>
    obtain ⟨k, kw, ks⟩ := x
    by_cases h : k = m
    · rw [show addEntry ((k, kw, ks) :: xs) m w s = (k, kw + w, ks + s) :: xs from by
        simp [addEntry, h]]
      rw [sumWeights_cons, sumWeights_cons, sumAmounts_cons, sumAmounts_cons]
      constructor <;> ring
    · rw [show addEntry ((k, kw, ks) :: xs) m w s = (k, kw, ks) :: addEntry xs m w s from by
        simp [addEntry, h]]
      rw [sumWeights_cons, sumWeights_cons, sumAmounts_cons, sumAmounts_cons, ih.1, ih.2]
      constructor <;> ring

lemma briefGrouped_fold_sums (mapping : List (String × String)) :
    ∀ (l : Agg) (g : Agg),
      sumWeights (l.foldl (fun g e => addEntry g (kindOf mapping e.1) e.2.1 e.2.2) g) =
        sumWeights g + sumWeights l ∧
      sumAmounts (l.foldl (fun g e => addEntry g (kindOf mapping e.1) e.2.1 e.2.2) g) =
        sumAmounts g + sumAmounts l := by
  intro l
  induction l with
  | nil => intro g; simp [sumWeights, sumAmounts]
  | cons e xs ih =>
    intro g
    rw [List.foldl_cons]
    obtain ⟨ih1, ih2⟩ := ih (addEntry g (kindOf mapping e.1) e.2.1 e.2.2)
    obtain ⟨ha1, ha2⟩ := sums_addEntry g (kindOf mapping e.1) e.2.1 e.2.2
    rw [sumWeights_cons, sumAmounts_cons, ih1, ih2, ha1, ha2]
    constructor <;> ring

lemma insertByAmountDesc_perm (x : String × Rat × Rat) (l : Agg) :
    (insertByAmountDesc x l).Perm (x :: l) := by
  induction l with
  | nil => exact List.Perm.refl _
  | cons y ys ih =>
    unfold insertByAmountDesc
    by_cases h : y.2.2 < x.2.2
    · rw [if_pos h]
    · rw [if_neg h]
      exact (ih.cons y).trans (List.Perm.swap x y ys)

lemma sortByAmountDesc_perm (l : Agg) : (sortByAmountDesc l).Perm l := by
  have h : ∀ (l acc : Agg),
      (l.foldl (fun acc x => insertByAmountDesc x acc) acc).Perm (acc ++ l) := by
    intro l
    induction l with
    | nil => intro acc; simp
    | cons x xs ih =>
      intro acc
      rw [List.foldl_cons]
      refine (ih _).trans ?_
      refine ((insertByAmountDesc_perm x acc).append_right xs).trans ?_
      rw [List.cons_append]
      exact List.perm_middle.symm
  simpa using h l []

lemma sums_of_perm {l1 l2 : Agg} (h : l1.Perm l2) :
    sumWeights l1 = sumWeights l2 ∧ sumAmounts l1 = sumAmounts l2 :=
  ⟨by unfold sumWeights; exact (h.map (fun e => e.2.1)).sum_eq,
   by unfold sumAmounts; exact (h.map (fun e => e.2.2)).sum_eq⟩

lemma foldl_pair_sums (l : Agg) : ∀ p : Rat × Rat,
    l.foldl (fun p e => (p.1 + e.2.1, p.2 + e.2.2)) p =
      (p.1 + sumWeights l, p.2 + sumAmounts l) := by
  induction l with
  | nil => intro p; simp [sumWeights, sumAmounts]
  | cons x xs ih =>
    intro p
    rw [List.foldl_cons, ih, sumWeights_cons, sumAmounts_cons, Prod.mk.injEq]
    constructor <;> dsimp only <;> ring

lemma briefGrouped_sums (agg : Agg) (mapping : List (String × String)) :
    sumWeights (briefGrouped agg mapping) = sumWeights agg ∧
    sumAmounts (briefGrouped agg mapping) = sumAmounts agg := by
  obtain ⟨h1, h2⟩ := briefGrouped_fold_sums mapping agg []
  unfold briefGrouped
  constructor
  · rw [h1]; simp [sumWeights]
  · rw [h2]; simp [sumAmounts]

lemma briefOverall_eq_raw (agg : Agg) (mapping : List (String × String)) :
    briefOverall agg mapping = (sumWeights agg, sumAmounts agg) := by
  unfold briefOverall
  rw [foldl_pair_sums]
  obtain ⟨hp1, hp2⟩ := sums_of_perm (sortByAmountDesc_perm (briefGrouped agg mapping))
  obtain ⟨hg1, hg2⟩ := briefGrouped_sums agg mapping
  rw [hp1, hp2, hg1, hg2, Prod.mk.injEq]
  constructor <;> ring

lemma setEntry_not_mem (ms : Agg) (e : String × Rat × Rat) (h : e.1 ∉ keysOf ms) :
    setEntry ms e = ms ++ [e] := by
  induction ms with
  | nil => rfl
  | cons x xs ih =>
    have hx : ¬(x.1 = e.1) := by
      intro hh
      exact h (by simp [keysOf, hh.symm])
    have hxs : e.1 ∉ keysOf xs := fun m => h (by simp [keysOf] at m ⊢; exact Or.inr m)
    rw [show setEntry (x :: xs) e = x :: setEntry xs e from by simp [setEntry, hx]]
    rw [ih hxs, List.cons_append]

lemma keysOf_cons (y : String × Rat × Rat) (ys : Agg) :
    keysOf (y :: ys) = y.1 :: keysOf ys := rfl

lemma keysOf_setEntry (ms : Agg) (e : String × Rat × Rat) (x : String) :
    x ∈ keysOf (setEntry ms e) ↔ x ∈ keysOf ms ∨ x = e.1 := by
  induction ms with
  | nil => simp [setEntry, keysOf]
  | cons y ys ih =>
    by_cases hy : y.1 = e.1
    · rw [show setEntry (y :: ys) e = e :: ys from by simp [setEntry, hy],
         keysOf_cons, keysOf_cons]
      simp only [List.mem_cons]
      constructor
      · rintro (hh | hh)
        · exact Or.inr hh
        · exact Or.inl (Or.inr hh)
      · rintro ((hh | hh) | hh)
        · exact Or.inl (hh.trans hy)
        · exact Or.inr hh
        · exact Or.inl hh
    · rw [show setEntry (y :: ys) e = y :: setEntry ys e from by simp [setEntry, hy],
         keysOf_cons, keysOf_cons]
      simp only [List.mem_cons]
      rw [ih]
      tauto

lemma mem_matsOf_addMaterial (g : List (String × Agg)) (kind : String)
    (e : String × Rat × Rat) (x : String) :
    x ∈ matsOf (addMaterial g kind e) ↔ x ∈ matsOf g ∨ x = e.1 := by
  induction g with
  | nil => simp [addMaterial, matsOf, keysOf]
  | cons km rest ih =>
    obtain ⟨k, ms⟩ := km
    by_cases hk : k = kind
    · rw [show addMaterial ((k, ms) :: rest) kind e = (k, setEntry ms e) :: rest from by
        simp [addMaterial, hk]]
      simp only [matsOf, List.mem_append]
      rw [keysOf_setEntry]
      tauto
    · rw [show addMaterial ((k, ms) :: rest) kind e = (k, ms) :: addMaterial rest kind e from by
        simp [addMaterial, hk]]
      simp only [matsOf, List.mem_append]
      rw [ih]
      tauto

lemma sums_append_single (ms : Agg) (e : String × Rat × Rat) :
    sumWeights (ms ++ [e]) = sumWeights ms + e.2.1 ∧
    sumAmounts (ms ++ [e]) = sumAmounts ms + e.2.2 := by
  constructor <;> simp [sumWeights, sumAmounts]

lemma nested_addMaterial (g : List (String × Agg)) (kind : String)
    (e : String × Rat × Rat) (h : e.1 ∉ matsOf g) :
    nestedWeights (addMaterial g kind e) = nestedWeights g + e.2.1 ∧
    nestedAmounts (addMaterial g kind e) = nestedAmounts g + e.2.2 := by
  induction g with
  | nil =>
    simp [addMaterial, nestedWeights, nestedAmounts, sumWeights, sumAmounts]
  | cons km rest ih =>
    obtain ⟨k, ms⟩ := km
    have hms : e.1 ∉ keysOf ms := fun m => h (by simp [matsOf]; exact Or.inl m)
    have hrest : e.1 ∉ matsOf rest := fun m => h (by simp [matsOf]; exact Or.inr m)
    by_cases hk : k = kind
    · rw [show addMaterial ((k, ms) :: rest) kind e = (k, setEntry ms e) :: rest from by
        simp [addMaterial, hk]]
      rw [setEntry_not_mem ms e hms]
      obtain ⟨ha1, ha2⟩ := sums_append_single ms e
      simp only [nestedWeights, nestedAmounts, List.map_cons, List.sum_cons] at *
      rw [ha1, ha2]
      constructor <;> ring
    · rw [show addMaterial ((k, ms) :: rest) kind e = (k, ms) :: addMaterial rest kind e from by
        simp [addMaterial, hk]]
      obtain ⟨ih1, ih2⟩ := ih hrest
      simp only [nestedWeights, nestedAmounts, List.map_cons, List.sum_cons] at *
      rw [ih1, ih2]
      constructor <;> ring

lemma detailedGrouped_fold_sums (mapping : List (String × String)) :
    ∀ (l : Agg) (g : List (String × Agg)),
      (l.map Prod.fst).Nodup → (∀ m ∈ l.map Prod.fst, m ∉ matsOf g) →
      nestedWeights (l.foldl (fun g e => addMaterial g (kindOf mapping e.1) e) g) =
        nestedWeights g + sumWeights l ∧
      nestedAmounts (l.foldl (fun g e => addMaterial g (kindOf mapping e.1) e) g) =
        nestedAmounts g + sumAmounts l := by
  intro l
  induction l with
  | nil => intro g _ _; simp [sumWeights, sumAmounts]
  | cons e xs ih =>
    intro g hnd hfresh
    rw [List.foldl_cons]
    rw [List.map_cons, List.nodup_cons] at hnd
    have hnd' : (xs.map Prod.fst).Nodup := hnd.2
    have hhead : e.1 ∉ xs.map Prod.fst := hnd.1
    have hfresh0 : e.1 ∉ matsOf g := hfresh e.1 (by simp)
    have hfresh' : ∀ m ∈ xs.map Prod.fst, m ∉ matsOf (addMaterial g (kindOf mapping e.1) e) := by
      intro m hm hmem
      rw [mem_matsOf_addMaterial] at hmem
      rcases hmem with hmem | hmem
      · exact hfresh m (by simp [hm]) hmem
      · exact hhead (hmem ▸ hm)
    obtain ⟨ih1, ih2⟩ := ih (addMaterial g (kindOf mapping e.1) e) hnd' hfresh'
    obtain ⟨ha1, ha2⟩ := nested_addMaterial g (kindOf mapping e.1) e hfresh0
    rw [ih1, ih2, ha1, ha2, sumWeights_cons, sumAmounts_cons]
    constructor <;> ring

lemma kindSubtotals_sums (agg : Agg) (mapping : List (String × String)) :
    sumWeights (kindSubtotals agg mapping) = nestedWeights (detailedGrouped agg mapping) ∧
    sumAmounts (kindSubtotals agg mapping) = nestedAmounts (detailedGrouped agg mapping) := by
  unfold kindSubtotals nestedWeights nestedAmounts sumWeights sumAmounts
  constructor <;> rw [List.map_map] <;> rfl

lemma detailedOverall_eq_raw (agg : Agg) (mapping : List (String × String))
    (hnd : (agg.map Prod.fst).Nodup) :
    detailedOverall agg mapping = (sumWeights agg, sumAmounts agg) := by
  unfold detailedOverall
  rw [foldl_pair_sums]
  obtain ⟨hp1, hp2⟩ := sums_of_perm (sortByAmountDesc_perm (kindSubtotals agg mapping))
  obtain ⟨hk1, hk2⟩ := kindSubtotals_sums agg mapping
  obtain ⟨hd1, hd2⟩ := detailedGrouped_fold_sums mapping agg [] hnd (by simp [matsOf])
  unfold detailedGrouped at hk1 hk2
  rw [hp1, hp2, hk1, hk2, hd1, hd2, Prod.mk.injEq]
  simp [nestedWeights, nestedAmounts]

/-- C4: for every aggregated mapping (with its materials distinct, as a
mapping has) and every material-to-kind mapping: the brief grand total
equals the sum over the per-kind rows and equals the raw totals of the
aggregated mapping; the detailed grand total equals the sum over the
per-kind subtotals, each of which is the sum over that kind's materials,
and equals the raw totals; and both tables display the grand-total row as
the two-decimal rendering of those exact raw totals. -/
theorem c4_totals (agg : Agg) (mapping : List (String × String))
    (hnd : (agg.map Prod.fst).Nodup) :
    briefOverall agg mapping =
      (sumWeights (briefGrouped agg mapping), sumAmounts (briefGrouped agg mapping)) ∧
    briefOverall agg mapping = (sumWeights agg, sumAmounts agg) ∧
    detailedOverall agg mapping =
      (sumWeights (kindSubtotals agg mapping), sumAmounts (kindSubtotals agg mapping)) ∧
    detailedOverall agg mapping = (sumWeights agg, sumAmounts agg) ∧
    kindSubtotals agg mapping =
      (detailedGrouped agg mapping).map
        (fun km => (km.1, sumWeights km.2, sumAmounts km.2)) ∧
    (generate_brief_table_data agg mapping).getLast? =
      some ["**Загальний підсумок:**", format_number (sumWeights agg),
            format_number (sumAmounts agg)] ∧
    (generate_detailed_table_data agg mapping).getLast? =
      some ["**Загальний підсумок:**", format_number (sumWeights agg),
            format_number (sumAmounts agg), ""] := by
  have hbrief := briefOverall_eq_raw agg mapping
  have hdet := detailedOverall_eq_raw agg mapping hnd
  refine ⟨?_, hbrief, ?_, hdet, rfl, ?_, ?_⟩
  · unfold briefOverall
    rw [foldl_pair_sums]
    obtain ⟨hp1, hp2⟩ := sums_of_perm (sortByAmountDesc_perm (briefGrouped agg mapping))
    rw [hp1, hp2, Prod.mk.injEq]
    constructor <;> ring
  · unfold detailedOverall
    rw [foldl_pair_sums]
    obtain ⟨hp1, hp2⟩ := sums_of_perm (sortByAmountDesc_perm (kindSubtotals agg mapping))
    rw [hp1, hp2, Prod.mk.injEq]
    constructor <;> ring
  · unfold generate_brief_table_data
    dsimp only
    rw [show (briefOverall agg mapping).1 = sumWeights agg from by rw [hbrief],
        show (briefOverall agg mapping).2 = sumAmounts agg from by rw [hbrief]]
    rw [List.append_assoc, List.getLast?_append]
    simp
  · unfold generate_detailed_table_data
    dsimp only
    rw [show (detailedOverall agg mapping).1 = sumWeights agg from by rw [hdet],
        show (detailedOverall agg mapping).2 = sumAmounts agg from by rw [hdet]]
    rw [List.append_assoc, List.getLast?_append]
    simp

/-- Witness for C4 at a concrete two-material mapping. -/
theorem c4_witness :
    briefOverall [("Мідь", (2 : Rat), (10 : Rat)), ("Алюміній", (1 : Rat), (20 : Rat))]
        [("Мідь", "Кольоровий")] =
      (sumWeights [("Мідь", (2 : Rat), (10 : Rat)), ("Алюміній", (1 : Rat), (20 : Rat))],
       sumAmounts [("Мідь", (2 : Rat), (10 : Rat)), ("Алюміній", (1 : Rat), (20 : Rat))]) :=
  (c4_totals [("Мідь", (2 : Rat), (10 : Rat)), ("Алюміній", (1 : Rat), (20 : Rat))]
    [("Мідь", "Кольоровий")] (by decide)).2.1

/-- C5: for report bounds parsed from `dd.mm.yyyy` strings, the document
title follows exactly the three-way rule: equal bounds that are not a full
calendar month give the localized single-day form; a range spanning exactly
a full calendar month (start is day 1, end is the last day of the same
month and year) gives the month/year form; anything else gives the literal
`start - end` range with both dates rendered `yyyy-mm-dd`; in each case an
unspecified location is replaced by the literal "Загальний" placeholder. -/
theorem c5_doc_title (startS endS loc : String) (today : Date) (d1 d2 : Date)
    (h1 : parseDMY startS = some d1) (h2 : parseDMY endS = some d2) :
    (d1 = d2 ∧
        ¬(d1.day = 1 ∧ d2.day = daysInMonth d1.year d1.month ∧
          d1.month = d2.month ∧ d1.year = d2.year) →
      docTitle startS endS loc today =
        "Звіт за " ++ toString d1.day ++ " " ++ monthNamesGen.getD (d1.month - 1) "" ++
          " " ++ toString d1.year ++ " року (" ++
          (if loc = "" then "Загальний" else loc) ++ ")") ∧
    (d1.day = 1 ∧ d2.day = daysInMonth d1.year d1.month ∧
        d1.month = d2.month ∧ d1.year = d2.year →
      docTitle startS endS loc today =
        "Звіт про закупівлі та продажі: " ++ (if loc = "" then "Загальний" else loc) ++
          " за " ++ monthNamesNom.getD (d1.month - 1) "" ++ " " ++ toString d1.year ++
          " року") ∧
    (¬(d1 = d2) ∧
        ¬(d1.day = 1 ∧ d2.day = daysInMonth d1.year d1.month ∧
          d1.month = d2.month ∧ d1.year = d2.year) →
      docTitle startS endS loc today =
        "Звіт: " ++ (if loc = "" then "Загальний" else loc) ++ " | " ++
          formatYMD d1 ++ " - " ++ formatYMD d2) := by
  have hres : resolveReportDates startS endS today = (d1, d2) := by
    unfold resolveReportDates
    rw [h1, h2]
  have hfm : fullMonthB d1 d2 = true ↔
      (d1.day = 1 ∧ d2.day = daysInMonth d1.year d1.month ∧
        d1.month = d2.month ∧ d1.year = d2.year) := by
    unfold fullMonthB
    simp [Bool.and_eq_true, beq_iff_eq, and_assoc]
  refine ⟨?_, ?_, ?_⟩
  · intro h
    obtain ⟨heq, hnot⟩ := h
    have hb : fullMonthB d1 d2 = false :=
      Bool.eq_false_iff.mpr (fun hh => hnot (hfm.mp hh))
    subst heq
    unfold docTitle
    rw [hres]
    dsimp only
    rw [if_pos (by simp [hb])]
  · intro h
    have hb : fullMonthB d1 d2 = true := hfm.mpr h
    unfold docTitle
    rw [hres]
    dsimp only
    rw [if_neg (by simp [hb]), if_pos hb]
  · intro h
    have hb : fullMonthB d1 d2 = false :=
      Bool.eq_false_iff.mpr (fun hh => h.2 (hfm.mp hh))
    unfold docTitle
    rw [hres]
    dsimp only
    rw [if_neg (by simp [h.1]), if_neg (by simp [hb])]

/-- Witness for C5 at the three spec examples (single day 19.02.2025; full
February 2025; explicit range 05.02.2025-19.02.2025). -/
theorem c5_witness :
    docTitle "19.02.2025" "19.02.2025" "" ⟨2025, 1, 1⟩ =
      "Звіт за 19 лютого 2025 року (Загальний)" ∧
    docTitle "01.02.2025" "28.02.2025" "ІРПІНЬ" ⟨2025, 1, 1⟩ =
      "Звіт про закупівлі та продажі: ІРПІНЬ за лютий 2025 року" ∧
    docTitle "05.02.2025" "19.02.2025" "" ⟨2025, 1, 1⟩ =
      "Звіт: Загальний | 2025-02-05 - 2025-02-19" := by
  refine ⟨?_, ?_, ?_⟩
  · have h := (c5_doc_title "19.02.2025" "19.02.2025" "" ⟨2025, 1, 1⟩
      ⟨2025, 2, 19⟩ ⟨2025, 2, 19⟩ (by decide) (by decide)).1 (by decide)
    rw [h]
    rfl
  · have h := (c5_doc_title "01.02.2025" "28.02.2025" "ІРПІНЬ" ⟨2025, 1, 1⟩
      ⟨2025, 2, 1⟩ ⟨2025, 2, 28⟩ (by decide) (by decide)).2.1 (by decide)
    rw [h]
    rfl
  · have h := (c5_doc_title "05.02.2025" "19.02.2025" "" ⟨2025, 1, 1⟩
      ⟨2025, 2, 5⟩ ⟨2025, 2, 19⟩ (by decide) (by decide)).2.2 (by decide)
    rw [h]
    rfl

/-- C6: splitting the custom-dates free text on `-` gives: 1 token — a
single-day range (start = end = trimmed token), wizard completed; 2 tokens —
start/end the two trimmed raw tokens (no calendar validation), wizard
completed; any other count — re-prompt with the session store left
unchanged. The concrete inputs "01.03.2025", "01.03.2025-15.03.2025" and
"01.03.2025-15.03.2025-20.03.2025" behave as the claim lists. -/
theorem c6_custom_dates (store : Store) (cid text : String) :
    ((pySplit '-' text).length = 1 →
      custom_dates store cid text =
        (set_state store cid
          { (get_state store cid).getD {} with
            periodType := "З - ПО"
            startDate := pyStrip ((pySplit '-' text).headD "")
            endDate := pyStrip ((pySplit '-' text).headD "")
            stage := "completed" },
         CustomDatesOutcome.completedReport
          { (get_state store cid).getD {} with
            periodType := "З - ПО"
            startDate := pyStrip ((pySplit '-' text).headD "")
            endDate := pyStrip ((pySplit '-' text).headD "")
            stage := "completed" })) ∧
    ((pySplit '-' text).length = 2 →
      custom_dates store cid text =
        (set_state store cid
          { (get_state store cid).getD {} with
            periodType := "З - ПО"
            startDate := pyStrip ((pySplit '-' text).headD "")
            endDate := pyStrip ((pySplit '-' text).getD 1 "")
            stage := "completed" },
         CustomDatesOutcome.completedReport
          { (get_state store cid).getD {} with
            periodType := "З - ПО"
            startDate := pyStrip ((pySplit '-' text).headD "")
            endDate := pyStrip ((pySplit '-' text).getD 1 "")
            stage := "completed" })) ∧
    ((pySplit '-' text).length ≠ 1 → (pySplit '-' text).length ≠ 2 →
      custom_dates store cid text = (store, CustomDatesOutcome.reprompt)) := by
  refine ⟨?_, ?_, ?_⟩
  · intro h1
    unfold custom_dates
    rw [if_neg (by omega)]
    dsimp only
    rw [if_neg (by omega)]
  · intro h2
    unfold custom_dates
    rw [if_neg (by omega)]
    dsimp only
    rw [if_pos h2]
  · intro h1 h2
    unfold custom_dates
    rw [if_pos ⟨h1, h2⟩]

/-- Witness for C6 at the three concrete inputs of the claim. -/
theorem c6_witness :
    custom_dates [] "42" "01.03.2025" =
      (set_state [] "42"
        { periodType := "З - ПО", startDate := "01.03.2025",
          endDate := "01.03.2025", stage := "completed" },
       CustomDatesOutcome.completedReport
        { periodType := "З - ПО", startDate := "01.03.2025",
          endDate := "01.03.2025", stage := "completed" }) ∧
    custom_dates [] "42" "01.03.2025-15.03.2025" =
      (set_state [] "42"
        { periodType := "З - ПО", startDate := "01.03.2025",
          endDate := "15.03.2025", stage := "completed" },
       CustomDatesOutcome.completedReport
        { periodType := "З - ПО", startDate := "01.03.2025",
          endDate := "15.03.2025", stage := "completed" }) ∧
    custom_dates [] "42" "01.03.2025-15.03.2025-20.03.2025" =
      ([], CustomDatesOutcome.reprompt) := by
  refine ⟨?_, ?_, ?_⟩
  · have h := (c6_custom_dates [] "42" "01.03.2025").1 (by decide)
    rw [h]
    rfl
  · have h := (c6_custom_dates [] "42" "01.03.2025-15.03.2025").2.1 (by decide)
    rw [h]
    rfl
  · exact (c6_custom_dates [] "42" "01.03.2025-15.03.2025-20.03.2025").2.2
      (by decide) (by decide)

/-- C8: the access check is fail-closed — a failed spreadsheet fetch yields
`false`, and so does a permissions table without any row whose identity
column matches the caller together with the REPORT capability; and when the
check is `false` the wizard entry point refuses without creating (or
touching) any session record. -/
theorem c8_access_gate (cid fullName : String) (store : Store) :
    is_user_allowed none cid = false ∧
    (∀ data : List (List String),
      (∀ row ∈ data.drop 1, usersRowMatches row cid = false) →
      is_user_allowed (some data) cid = false) ∧
    (∀ fetch, is_user_allowed fetch cid = false →
      report_command fetch cid fullName store = (store, false)) := by
  refine ⟨rfl, ?_, ?_⟩
  · intro data hrows
    unfold is_user_allowed
    have hscan : ∀ rows : List (List String),
        (∀ row ∈ rows, usersRowMatches row cid = false) → scanUsers rows cid = false := by
      intro rows
      induction rows with
      | nil => intro _; rfl
      | cons row rest ih =>
        intro hall
        unfold scanUsers
        by_cases hlen : row.length < 7
        · rw [if_pos hlen]
        · rw [if_neg hlen, hall row (List.mem_cons_self _ _)]
          simp only [Bool.false_eq_true, if_false]
          exact ih (fun r hr => hall r (List.mem_cons_of_mem _ hr))
    exact hscan _ hrows
  · intro fetch hfalse
    unfold report_command
    rw [hfalse]
    simp

/-- Witness for C8: a permissions table whose only data row carries a
different identity, and the refusal leaving an empty store empty. -/
theorem c8_witness :
    is_user_allowed (some [["header"], ["", "", "777", "", "", "", "REPORT"]]) "5" = false ∧
    report_command none "5" "Оператор" [] = ([], false) := by
  constructor
  · exact (c8_access_gate "5" "Оператор" []).2.1
      [["header"], ["", "", "777", "", "", "", "REPORT"]] (by decide)
  · exact (c8_access_gate "5" "Оператор" []).2.2 none rfl

/-- C10: any custom-dates text without a `-` (the empty and all-whitespace
strings included) is accepted as a single-day range: both bounds become the
stripped text and the wizard completes and triggers generation; and the PDF
date prologue substitutes today's date for both bounds whenever either
stored bound fails to parse as `dd.mm.yyyy`. -/
theorem c10_dashless_and_fallback :
    (∀ (store : Store) (cid text : String), text.data.all (fun c => c ≠ '-') = true →
      (pySplit '-' text).length = 1 ∧
      custom_dates store cid text =
        (set_state store cid
          { (get_state store cid).getD {} with
            periodType := "З - ПО"
            startDate := pyStrip text
            endDate := pyStrip text
            stage := "completed" },
         CustomDatesOutcome.completedReport
          { (get_state store cid).getD {} with
            periodType := "З - ПО"
            startDate := pyStrip text
            endDate := pyStrip text
            stage := "completed" })) ∧
    (∀ (s e : String) (today : Date), parseDMY s = none ∨ parseDMY e = none →
      resolveReportDates s e today = (today, today)) := by
  constructor
  · intro store cid text hnodash
    have hmem : '-' ∉ text.data := by
      intro hmem
      have := List.all_eq_true.mp hnodash '-' hmem
      simp at this
    have hsplit : pySplit '-' text = [text.data.asString] := by
      unfold pySplit
      rw [splitChars_no_sep '-' text.data hmem]
      rfl
    have hback : text.data.asString = text := rfl
    rw [hback] at hsplit
    constructor
    · rw [hsplit]
      rfl
    · have h := (c6_custom_dates store cid text).1 (by rw [hsplit]; rfl)
      rw [hsplit] at h
      exact h
  · intro s e today h
    unfold resolveReportDates
    rcases h with h | h
    · rw [h]
    · rw [h]
      cases parseDMY s <;> rfl

/-- Witness for C10: the all-whitespace input "  " and a pair of
unparsable stored bounds. -/
theorem c10_witness :
    (pySplit '-' "  ").length = 1 ∧
    custom_dates [] "7" "  " =
      (set_state [] "7"
        { periodType := "З - ПО", startDate := "", endDate := "",
          stage := "completed" },
       CustomDatesOutcome.completedReport
        { periodType := "З - ПО", startDate := "", endDate := "",
          stage := "completed" }) ∧
    resolveReportDates "01.03.2025" "колись" ⟨2025, 4, 1⟩ = (⟨2025, 4, 1⟩, ⟨2025, 4, 1⟩) := by
  obtain ⟨hlen, heq⟩ := c10_dashless_and_fallback.1 [] "7" "  " (by decide)
  refine ⟨hlen, ?_, ?_⟩
  · rw [heq]
    rfl
  · exact c10_dashless_and_fallback.2 "01.03.2025" "колись" ⟨2025, 4, 1⟩
      (Or.inr (by decide))

end ReportBot
